import Mathlib

/-
  Verification development for the commit-safety checker
  (Commit Resolution & Dual-Version Shadow Comparison Engine).

  Shallow embedding of:
    - backend/utils/shadow_traffic.py  (ShadowTrafficRunner)
    - backend/utils/repo_analyzer.py   (RepoAnalyzer)

  Python strings are embedded as Lean `String`, with the Python string
  methods used by the source re-implemented structurally over the
  character list (`String.toList` / `String.mk`), so that every
  definition evaluates inside the kernel.
-/

/-! ## Python string primitives -/

/-- Python `str.startswith(pre)`. -/
def pyStartsWith (s pre : String) : Bool :=
  pre.toList.isPrefixOf s.toList

/-- Whitespace characters removed by Python `str.strip()`. -/
def pyIsSpace (c : Char) : Bool :=
  c = ' ' || c = '\t' || c = '\n' || c = '\x0d' || c = '\x0b' || c = '\x0c'

/-- Python `str.strip()`. -/
def pyStrip (s : String) : String :=
  ⟨((s.toList.dropWhile pyIsSpace).reverse.dropWhile pyIsSpace).reverse⟩

/-- Python `s[n:]` (drop the first `n` characters). -/
def pyDrop (s : String) (n : Nat) : String :=
  ⟨s.toList.drop n⟩

/-- Python `len(s)` (number of characters). -/
def pyLen (s : String) : Nat := s.toList.length

/-- Python `s.count(c)` for a single-character needle. -/
def pyCount (s : String) (c : Char) : Nat := s.toList.count c

/-- Auxiliary for `pySplitChar`: accumulates the current piece (reversed). -/
def pySplitCharAux (c : Char) : List Char → List Char → List String
  | [], acc => [⟨acc.reverse⟩]
  | x :: xs, acc =>
    if x = c then ⟨acc.reverse⟩ :: pySplitCharAux c xs []
    else pySplitCharAux c xs (x :: acc)

/-- Python `s.split(c)` for a single-character separator
    (`"a||b".split('|') = ["a","","b"]`, `"".split('|') = [""]`). -/
def pySplitChar (c : Char) (s : String) : List String :=
  pySplitCharAux c s.toList []

/-- Auxiliary for `pyJoin`: concatenation with separator before each element. -/
def pyJoinAux (sep : List Char) : List String → List Char
  | [] => []
  | x :: xs => sep ++ x.toList ++ pyJoinAux sep xs

/-- Python `sep.join(l)`. -/
def pyJoin (sep : String) : List String → String
  | [] => ""
  | x :: xs => ⟨x.toList ++ pyJoinAux sep.toList xs⟩

/-- Substring test on character lists (Python `sub in s`). -/
def pyContainsAux (sub : List Char) : List Char → Bool
  | [] => sub.isPrefixOf []
  | x :: xs => sub.isPrefixOf (x :: xs) || pyContainsAux sub xs

/-- Python `sub in s`. -/
def pyContains (sub s : String) : Bool :=
  pyContainsAux sub.toList s.toList

/-! ## JSON values and shape signatures (shadow_traffic.py) -/

/-- A parsed JSON value (result of Python `json.loads`). Python floats are
    embedded as rationals; only their type name and truthiness are ever
    inspected by the comparator. -/
inductive Json where
  | null : Json
  | bool : Bool → Json
  | int : Int → Json
  | float : ℚ → Json
  | str : String → Json
  | arr : List Json → Json
  | obj : List (String × Json) → Json

/-- Python truthiness of a parsed JSON value (`if x:`). -/
def Json.truthy : Json → Bool
  | .null => false
  | .bool b => b
  | .int n => !(n == 0)
  | .float q => !(q == 0)
  | .str s => !(s == "")
  | .arr l => !l.isEmpty
  | .obj l => !l.isEmpty

/-- The value returned by `ShadowTrafficRunner._extract_schema`:
    a dict of shapes, a singleton list of a shape, or a type name string. -/
inductive Schema where
  | scalar : String → Schema
  | list1 : Schema → Schema
  | obj : List (String × Schema) → Schema

mutual
/-- Embeds `ShadowTrafficRunner._extract_schema`: dict → dict of value shapes
    (`extract_schema_entries` is the dict comprehension), non-empty list →
    singleton list of the first element's shape, otherwise the Python type
    name (`NoneType`, `bool`, `int`, `float`, `str`, and `list` for `[]`). -/
def extract_schema : Json → Schema
  | .obj l => .obj (extract_schema_entries l)
  | .arr (x :: _) => .list1 (extract_schema x)
  | .arr [] => .scalar "list"
  | .null => .scalar "NoneType"
  | .bool _ => .scalar "bool"
  | .int _ => .scalar "int"
  | .float _ => .scalar "float"
  | .str _ => .scalar "str"

/-- The dict comprehension `{k: self._extract_schema(v) for k, v in obj.items()}`. -/
def extract_schema_entries : List (String × Json) → List (String × Schema)
  | [] => []
  | (k, v) :: rest => (k, extract_schema v) :: extract_schema_entries rest
end

/-- Lexicographic order on character lists (by code point). -/
def charListLE : List Char → List Char → Bool
  | [], _ => true
  | _ :: _, [] => false
  | a :: as, b :: bs =>
    a.toNat < b.toNat || (a.toNat == b.toNat && charListLE as bs)

/-- Total order on keys used only to canonicalize dict entries. -/
def keyLE (a b : String) : Bool := charListLE a.toList b.toList

/-- Insert an entry into a key-sorted association list. -/
def orderedInsertKey (p : String × Schema) : List (String × Schema) → List (String × Schema)
  | [] => [p]
  | q :: rest => if keyLE p.1 q.1 then p :: q :: rest else q :: orderedInsertKey p rest

/-- Insertion sort of association-list entries by key. -/
def sortByKey : List (String × Schema) → List (String × Schema)
  | [] => []
  | p :: rest => orderedInsertKey p (sortByKey rest)

mutual
/-- Canonical form of a schema: every dict's entries sorted by key.
    On the unique-key dicts produced by `json.loads`, Python dict equality
    coincides with structural equality of these canonical forms. -/
def Schema.normalize : Schema → Schema
  | .scalar s => .scalar s
  | .list1 s => .list1 s.normalize
  | .obj l => .obj (sortByKey (normalizeEntries l))

/-- Normalize every value of an association list. -/
def normalizeEntries : List (String × Schema) → List (String × Schema)
  | [] => []
  | (k, v) :: rest => (k, v.normalize) :: normalizeEntries rest
end

mutual
/-- Structural equality of schemas. -/
def Schema.beq : Schema → Schema → Bool
  | .scalar a, .scalar b => a == b
  | .list1 a, .list1 b => a.beq b
  | .obj a, .obj b => beqEntries a b
  | _, _ => false

/-- Structural equality of association-list entries. -/
def beqEntries : List (String × Schema) → List (String × Schema) → Bool
  | [], [] => true
  | (k1, v1) :: r1, (k2, v2) :: r2 => k1 == k2 && v1.beq v2 && beqEntries r1 r2
  | _, _ => false
end

/-- Python `==` between two extracted schemas (dicts compared as finite
    maps, independent of key order): structural equality of the key-sorted
    canonical forms. -/
def schemaEqPy (a b : Schema) : Bool :=
  a.normalize.beq b.normalize

/-! ## Probe results and response comparison (shadow_traffic.py) -/

/-- The response dictionary built by `ShadowTrafficRunner._send_request`:
    on success it carries `status`, `headers`, `body`, `body_json`, `size`;
    on failure `status = 0`, an `error` message, `body = None`,
    `body_json = None`, `size = 0`. Latencies are measured in milliseconds;
    Python floats are embedded as rationals. -/
structure ProbeResult where
  status : Nat
  headers : List (String × String) := []
  error : Option String := none
  body : Option String := none
  body_json : Option Json := none
  size : Nat := 0

/-- One discrepancy record appended by `_compare_responses`. -/
structure Discrepancy where
  type : String
  description : String
  critical : Bool
deriving DecidableEq

/-- Per-version summary embedded in a comparison record. -/
structure VersionSummary where
  status : Nat
  latency_ms : ℚ
  size : Nat
deriving DecidableEq

/-- The comparison record returned by `_compare_responses`. -/
structure Comparison where
  endpoint : String
  method : String
  has_discrepancy : Bool
  critical : Bool
  discrepancies : List Discrepancy
  version_a : VersionSummary
  version_b : VersionSummary
deriving DecidableEq

/-- Python `f"{x:.0f}"`: render a float rounded to zero decimal places
    (embedded as rounding the rational to the nearest integer). -/
def fmt0 (q : ℚ) : String := toString (round q)

/-- Embeds `ShadowTrafficRunner._compare_responses`. The four discrepancy rules
    run independently, mirroring the source's sequential appends:
    status mismatch (critical), JSON schema change (gated on both parsed
    bodies being truthy), latency increase above 100 ms, and relative size
    change above 20 % when version A's size is non-zero. The Python float
    literal `0.2` is embedded as the rational `0.2 = 1/5`. -/
def compare_responses (path method : String)
    (version_a_response : ProbeResult) (version_a_latency : ℚ)
    (version_b_response : ProbeResult) (version_b_latency : ℚ) : Comparison :=
  let statusFlag := version_a_response.status != version_b_response.status
  let statusDiscs : List Discrepancy :=
    if statusFlag then
      [⟨"status_code_mismatch",
        "Status code changed: " ++ toString version_a_response.status ++ " -> " ++
          toString version_b_response.status, true⟩]
    else []
  let schemaFlag :=
    match version_a_response.body_json, version_b_response.body_json with
    | some a, some b =>
        a.truthy && b.truthy && !(schemaEqPy (extract_schema a) (extract_schema b))
    | _, _ => false
  let schemaDiscs : List Discrepancy :=
    if schemaFlag then [⟨"schema_change", "Response schema changed", false⟩] else []
  let latency_increase := version_b_latency - version_a_latency
  let latencyFlag := decide (latency_increase > 100)
  let latencyDiscs : List Discrepancy :=
    if latencyFlag then
      [⟨"latency_increase",
        "Latency increased by " ++ fmt0 latency_increase ++ "ms (" ++
          fmt0 version_a_latency ++ "ms -> " ++ fmt0 version_b_latency ++ "ms)", false⟩]
    else []
  let size_a := version_a_response.size
  let size_b := version_b_response.size
  let size_change : ℚ := |(size_b : ℚ) - (size_a : ℚ)| / (size_a : ℚ)
  let sizeFlag := decide (0 < size_a) && decide (size_change > 0.2)
  let sizeDiscs : List Discrepancy :=
    if sizeFlag then
      [⟨"response_size_change",
        "Response size changed by " ++ fmt0 (size_change * 100) ++ "%", false⟩]
    else []
  { endpoint := path
    method := method
    has_discrepancy := statusFlag || schemaFlag || latencyFlag || sizeFlag
    critical := statusFlag
    discrepancies := statusDiscs ++ schemaDiscs ++ latencyDiscs ++ sizeDiscs
    version_a := ⟨version_a_response.status, version_a_latency, size_a⟩
    version_b := ⟨version_b_response.status, version_b_latency, size_b⟩ }

/-- Outcome of the `aiohttp` call made by `_send_request`, supplied by the
    environment: either a response (with the verbatim body text, the result
    of the `json.loads` attempt on it, and the elapsed wall time in ms), or
    an exception carrying its message and the elapsed wall time. -/
inductive HttpOutcome where
  | ok (status : Nat) (headers : List (String × String)) (body : String)
       (parsed : Option Json) (elapsedMs : ℚ)
  | exn (message : String) (elapsedMs : ℚ)

/-- Timeout (seconds) passed to `aiohttp.ClientTimeout(total=5)` by
    `_send_request`. -/
def requestTimeoutSecs : Nat := 5

/-- Embeds `ShadowTrafficRunner._send_request`: builds the response dictionary and
    its latency from the HTTP call's outcome; an exception is recovered
    into the sentinel result instead of propagating. -/
def send_request : HttpOutcome → ProbeResult × ℚ
  | .ok status headers body parsed elapsedMs =>
      ({ status := status, headers := headers, body := some body,
         body_json := parsed, size := pyLen body }, elapsedMs)
  | .exn message elapsedMs =>
      ({ status := 0, error := some message, body := none,
         body_json := none, size := 0 }, elapsedMs)

/-! ## Per-file diff parsing (repo_analyzer.py, `_parse_diff_content`) -/

/-- One entry of the list returned by `RepoAnalyzer._parse_diff_content`
    (the `file` / `diff` dictionary). -/
structure FileDiff where
  file : String
  diff : String
deriving DecidableEq

/-- Loop state of `_parse_diff_content`: entries emitted so far, the
    `current_file` variable (`None` initially) and the `current_diff`
    list of lines. -/
structure PDState where
  diffs : List FileDiff
  current_file : Option String
  current_diff : List String

/-- The `if current_file and current_diff: diffs.append(...)` emission:
    non-empty path string and non-empty line list, joined with newlines. -/
def pdEmit (st : PDState) : List FileDiff :=
  match st.current_file with
  | some f =>
    if f != "" && !st.current_diff.isEmpty then [⟨f, pyJoin "\n" st.current_diff⟩] else []
  | none => []

/-- One iteration of the `for line in lines` loop of `_parse_diff_content`. -/
def pdStep (st : PDState) (line : String) : PDState :=
  if pyStartsWith line "diff --git" then
    { diffs := st.diffs ++ pdEmit st, current_file := none, current_diff := [line] }
  else if pyStartsWith line "--- a/" || pyStartsWith line "+++ b/" then
    { diffs := st.diffs
      current_file :=
        if pyStartsWith line "+++ b/" then some (pyStrip (pyDrop line 6)) else st.current_file
      current_diff := st.current_diff ++ [line] }
  else if !st.current_diff.isEmpty then
    { st with current_diff := st.current_diff ++ [line] }
  else st

/-- Embeds `RepoAnalyzer._parse_diff_content`: split the raw diff on newlines,
    run the loop, and append the last pending file section. -/
def parse_diff_content (diff_content : String) : List FileDiff :=
  let st := (pySplitChar '\n' diff_content).foldl pdStep ⟨[], none, []⟩
  st.diffs ++ pdEmit st

/-- The path carried by a `+++ b/` new-file marker line, if any
    (mirrors the extraction `line[6:].strip()` of the source). -/
def newFileMarkerPath (line : String) : Option String :=
  if pyStartsWith line "+++ b/" then some (pyStrip (pyDrop line 6)) else none

/-- The path carried by a `--- a/` old-file marker line, if any. -/
def oldFileMarkerPath (line : String) : Option String :=
  if pyStartsWith line "--- a/" then some (pyStrip (pyDrop line 6)) else none

/-- New-file paths of a list of diff lines, in order. -/
def newFilePathsL (lines : List String) : List String :=
  lines.filterMap newFileMarkerPath

/-- New-file paths mentioned by a raw diff stream, in order. -/
def newFilePaths (s : String) : List String :=
  newFilePathsL (pySplitChar '\n' s)

/-- Old-file paths mentioned by a raw diff stream, in order. -/
def oldFilePaths (s : String) : List String :=
  (pySplitChar '\n' s).filterMap oldFileMarkerPath

/-! ## Commit analysis (repo_analyzer.py, `analyze_changes`) -/

/-- Python `str.lower()`. -/
def pyLower (s : String) : String := ⟨s.toList.map Char.toLower⟩

/-- Python truthiness of an optional command output (`if output:`). -/
def pyTruthyStr : Option String → Bool
  | some s => s != ""
  | none => false

/-- One entry of `changes["modified_files"]`. -/
structure FileStat where
  path : String
  additions : Nat
  deletions : Nat
deriving DecidableEq

/-- The `changes` dictionary built by `RepoAnalyzer.analyze_changes`. -/
structure Changes where
  repo_path : String
  branch : String
  commit_sha : String
  modified_files : List FileStat
  modified_files_str : List String
  added_files : List String
  deleted_files : List String
  total_additions : Nat
  total_deletions : Nat
  diffs : List FileDiff
  commit_message : Option String := none
  commit_author : Option String := none
  commit_email : Option String := none
  commit_date : Option String := none
  parent_sha : Option String := none
  full_diff : Option String := none

/-- One line of `RepoAnalyzer._parse_git_diff`: a `--stat` row of the form
    `" file.py | 10 ++++++++++---"` (exactly one `|`, no `+++`/`---`)
    appends a file entry whose additions/deletions are the counts of `+`
    and `-` characters in the stripped stats column. -/
def parse_git_diff_line (ch : Changes) (line : String) : Changes :=
  if pyContains "|" line && !(pyContains "+++" line) && !(pyContains "---" line) then
    match pySplitChar '|' line with
    | [a, b] =>
      let file_path := pyStrip a
      let stats := pyStrip b
      let additions := pyCount stats '+'
      let deletions := pyCount stats '-'
      { ch with
        modified_files := ch.modified_files ++ [⟨file_path, additions, deletions⟩]
        modified_files_str := ch.modified_files_str ++ [file_path]
        total_additions := ch.total_additions + additions
        total_deletions := ch.total_deletions + deletions }
    | _ => ch
  else ch

/-- Embeds `RepoAnalyzer._parse_git_diff`: fold the line parser over the
    `--stat` output. -/
def parse_git_diff (diff_output : String) (changes : Changes) : Changes :=
  (pySplitChar '\n' diff_output).foldl parse_git_diff_line changes

/-- Results of the git child processes invoked by `analyze_changes`, as
    returned by `_run_git_command` (`none` = non-zero exit or timeout). -/
structure GitEnv where
  gitDirExists : Bool                -- os.path.exists(repo_path/.git)
  catFile : Option String            -- git cat-file -t <sha>
  revParseVerify : Option String     -- git rev-parse --verify <sha>^(commit), stripped stdout on rc 0
  catFileResolved : Option String    -- git cat-file -t <full sha> after short-SHA resolution
  revParseParent : Option String     -- git rev-parse <sha>^
  diffStat : Option String           -- git diff --stat <parent> <sha>
  diffContent : Option String        -- git diff <parent> <sha>
  diffU5 : Option String             -- git diff -U5 <parent> <sha>
  showStat : Option String           -- git show --stat <sha>   (root commit)
  showContent : Option String        -- git show <sha>          (root commit)
  showInfo : Option String           -- git show --no-patch --format=... <sha>

/-- The check `commit_exists and "commit" in commit_exists.lower()`. -/
def commitTypeOk (r : Option String) : Bool :=
  match r with
  | some s => pyContains "commit" (pyLower s)
  | none => false

/-- The fallback loop of `analyze_changes` that extracts file entries from
    `+++ b/` lines of the diff when no `--stat` output was available. -/
def addFilesFromDiffLines (ch : Changes) (diff_content : String) : Changes :=
  (pySplitChar '\n' diff_content).foldl
    (fun ch line =>
      if pyStartsWith line "+++ b/" then
        let file_path := pyStrip (pyDrop line 6)
        if file_path != "" && file_path != "/dev/null" then
          { ch with
            modified_files := ch.modified_files ++ [⟨file_path, 0, 0⟩]
            modified_files_str := ch.modified_files_str ++ [file_path] }
        else ch
      else ch)
    ch

/-- Embeds `RepoAnalyzer.analyze_changes`, with each git child process's result
    supplied by the environment. Raised `ValueError`s are returned as
    `Except.error` (the source re-wraps the message with an
    `"Error analyzing commit ..."` prefix, which is kept verbatim here only
    in simplified form). The short-SHA fallback's `git log --grep`
    suggestion search always ends in an error, so both of its outcomes are
    embedded as the same error value. -/
def analyze_changes (env : GitEnv) (repo_path commit_sha branch : String) :
    Except String Changes :=
  if commit_sha == "" then
    .error "Commit SHA is REQUIRED."
  else
    let changes0 : Changes :=
      { repo_path := repo_path, branch := branch, commit_sha := commit_sha
        modified_files := [], modified_files_str := []
        added_files := [], deleted_files := []
        total_additions := 0, total_deletions := 0, diffs := [] }
    if !env.gitDirExists then
      .error "Not a git repository"
    else
      let resolved : Except String String :=
        if commitTypeOk env.catFile then .ok commit_sha
        else
          match env.revParseVerify with
          | some full_sha =>
            if commitTypeOk env.catFileResolved then .ok (pyStrip full_sha)
            else .error "Commit not found in repository after resolution."
          | none => .error "Commit not found in repository."
      match resolved with
      | .error e => .error e
      | .ok sha =>
        let changes1 := { changes0 with commit_sha := sha }
        let changes2 :=
          match env.showInfo with
          | some commit_info =>
            if commit_info != "" then
              let lines := pySplitChar '\n' (pyStrip commit_info)
              { changes1 with
                commit_message := lines.get? 0
                commit_author := lines.get? 1
                commit_email := lines.get? 2
                commit_date := lines.get? 3 }
            else changes1
          | none => changes1
        let parentOpt : Option String :=
          match env.revParseParent with
          | some s => if s != "" then some (pyStrip s) else none
          | none => none
        let changes2p :=
          match parentOpt with
          | some p => { changes2 with parent_sha := some p }
          | none => changes2
        let (diff_stats, diff_content) :=
          match parentOpt with
          | some _ =>
            let dc := if !(pyTruthyStr env.diffContent) then env.diffU5 else env.diffContent
            (env.diffStat, dc)
          | none => (env.showStat, env.showContent)
        let changes3 :=
          if pyTruthyStr diff_stats then
            parse_git_diff (diff_stats.getD "") changes2p
          else if changes2p.modified_files.isEmpty then
            if pyTruthyStr diff_content then
              addFilesFromDiffLines changes2p (diff_content.getD "")
            else changes2p
          else changes2p
        let changes4 :=
          if pyTruthyStr diff_content then
            { changes3 with
              diffs := parse_diff_content (diff_content.getD "")
              full_diff := some (diff_content.getD "") }
          else
            { changes3 with diffs := [], full_diff := some "" }
        .ok changes4

/-! ## Dual-version shadow deployment (shadow_traffic.py, process lifecycle) -/

/-- Outcomes of the external calls made by `ShadowTrafficRunner` during
    setup: git child processes, `shutil` filesystem operations, start-command
    detection, and readiness probes. `resolve` is the commit actually checked
    out by `git checkout <sha>` inside a workspace copy (`none` = the
    checkout fails, which the source ignores); `detect` yields the detected
    start command for a workspace checked out at a given commit. -/
structure ShadowEnv where
  parentSha : Option String
  repoHead : String
  resolve : String → Option String
  detect : String → Option String
  readyA : Bool
  readyB : Bool

/-- Runner and filesystem state: each workspace (`.gate_shadow_A` /
    `.gate_shadow_B`) is absent or present at some HEAD commit, and each
    version's server process is running or not. -/
structure ShadowState where
  wsA : Option String
  wsB : Option String
  procA : Bool
  procB : Bool
deriving DecidableEq

/-- Filesystem/git actions performed by `_start_version` when materializing
    a workspace. -/
inductive MatAction where
  | rmtree : MatAction
  | copytree : MatAction
  | checkout : String → MatAction
deriving DecidableEq

/-- Embeds `ShadowTrafficRunner._is_correct_commit`: `git rev-parse HEAD` inside the
    workspace equals the requested sha (false when the directory is absent
    and the command fails). -/
def is_correct_commit (ws : Option String) (commit_sha : String) : Bool :=
  match ws with
  | some head => head == commit_sha
  | none => false

/-- Result of `_start_version`: its boolean return value, the workspace
    state it leaves behind, whether a server process was spawned, and the
    materialization actions performed, in order. -/
structure StartResult where
  ok : Bool
  ws : Option String
  started : Bool
  actions : List MatAction
deriving DecidableEq

/-- Embeds `ShadowTrafficRunner._start_version` acting on one workspace slot.
    If the workspace is missing or not at the requested commit, it is
    removed (when present) and recreated by copying the repository
    (yielding a copy at `env.repoHead`) and running `git checkout`
    (whose failure the source ignores). Then a start command is detected
    and, if found, the server process is spawned. Library exceptions
    (which the source converts to a `False` return) are not modelled. -/
def start_version (env : ShadowEnv) (commit_sha : String) (ws : Option String) :
    StartResult :=
  let (ws1, acts) :=
    if !ws.isSome || !is_correct_commit ws commit_sha then
      let rmActs : List MatAction := if ws.isSome then [.rmtree] else []
      let copied := env.repoHead
      let checkedOut :=
        match env.resolve commit_sha with
        | some target => target
        | none => copied
      (some checkedOut, rmActs ++ [.copytree, .checkout commit_sha])
    else (ws, ([] : List MatAction))
  match env.detect (ws1.getD env.repoHead) with
  | none => ⟨false, ws1, false, acts⟩
  | some _ => ⟨true, ws1, true, acts⟩

/-- Embeds `ShadowTrafficRunner._stop_version`: terminate, wait, kill; afterwards
    the process is no longer running. Never raises. -/
def stop_version (_process : Bool) : Bool := false

/-- Embeds `ShadowTrafficRunner.setup_dual_deployment`: resolve the parent commit,
    start version A (parent) then version B (current commit, stopping A's
    process when B fails to start), then poll both servers for readiness.
    Returns the `(success, error)` pair together with the final state. -/
def setup_dual_deployment (env : ShadowEnv) (commit_sha : String) (s : ShadowState) :
    (Bool × Option String) × ShadowState :=
  match env.parentSha with
  | none => ((false, some "Could not find parent commit"), s)
  | some parentOut =>
    let parent_sha := pyStrip parentOut
    let rA := start_version env parent_sha s.wsA
    let s1 : ShadowState :=
      { s with wsA := rA.ws, procA := if rA.started then true else s.procA }
    if !rA.ok then
      ((false, some "Failed to start version A (parent commit)"), s1)
    else
      let rB := start_version env commit_sha s1.wsB
      let s2 : ShadowState :=
        { s1 with wsB := rB.ws, procB := if rB.started then true else s1.procB }
      if !rB.ok then
        let s3 : ShadowState := { s2 with procA := stop_version s2.procA }
        ((false, some "Failed to start version B (current commit)"), s3)
      else
        if !(env.readyA && env.readyB) then
          ((false, some "Servers not ready"), s2)
        else
          ((true, none), s2)

/-- Embeds `ShadowTrafficRunner.cleanup`: stop both versions and remove both
    workspace directories. -/
def cleanup (s : ShadowState) : ShadowState :=
  { wsA := none, wsB := none
    procA := stop_version s.procA, procB := stop_version s.procB }

/-! ## Support definitions for the claim statements -/

/-- The property that every parsed file entry of a successful analysis has
    `deletions = 0` and that `total_deletions = 0` (vacuous on an error
    result). -/
def resultDeletionsZero : Except String Changes → Prop
  | .ok ch => (∀ f ∈ ch.modified_files, f.deletions = 0) ∧ ch.total_deletions = 0
  | .error _ => True

/-- A raw diff stream for a file deleted entirely: the old-file marker
    names the file and the new-file marker is `/dev/null`. -/
def deletionDiffText : String :=
  "diff --git a/old.py b/old.py\n--- a/old.py\n+++ /dev/null\n@@ -1,2 +0,0 @@\n-x\n-y"

/-- Git environment of the spec's root-commit scenario: no parent commit,
    tree containing the single 10-line file `a.py`; `git show --stat` and
    `git show` produce their documented output for it. -/
def rootCommitEnv : GitEnv :=
  { gitDirExists := true
    catFile := some "commit"
    revParseVerify := none
    catFileResolved := none
    revParseParent := none
    diffStat := none
    diffContent := none
    diffU5 := none
    showStat := some " a.py | 10 ++++++++++\n 1 file changed, 10 insertions(+)"
    showContent := some
      "diff --git a/a.py b/a.py\nnew file mode 100644\n--- /dev/null\n+++ b/a.py\n@@ -0,0 +1,10 @@\n+1\n+2\n+3\n+4\n+5\n+6\n+7\n+8\n+9\n+10"
    showInfo := some "Add a.py\nAlice\nalice@example.com\n2024-01-01 00:00:00 +0000" }

/-- Invariant of the `_parse_diff_content` loop state: when no new-file
    marker has been recorded for the current section, its pending lines
    carry no `+++ b/` path; a recorded marker is a non-empty path with a
    non-empty pending section; pending lines are newline-free. -/
def PDGood (st : PDState) : Prop :=
  (st.current_file = none → newFilePathsL st.current_diff = []) ∧
  (∀ f, st.current_file = some f → f ≠ "" ∧ st.current_diff ≠ []) ∧
  (∀ x ∈ st.current_diff, '\n' ∉ x.toList)

/-- All new-file paths accumulated by a parser state: those inside already
    emitted entries followed by those pending in the current section. -/
def pdPaths (st : PDState) : List String :=
  (st.diffs.map (fun e => newFilePaths e.diff)).flatten ++ newFilePathsL st.current_diff

/-! # Theorems -/

/-- C6: for every request whose HTTP call fails (connection refused,
    timeout, or any error), `_send_request` returns the sentinel
    ProbeResult — status 0, no body, no parsed body, size 0 — with latency
    equal to the elapsed wall time recorded for the failed call, instead of
    raising; the request timeout passed to the HTTP client is 5 seconds. -/
theorem c6_send_request_sentinel (message : String) (elapsedMs : ℚ) :
    send_request (.exn message elapsedMs) =
      ({ status := 0, headers := [], error := some message, body := none,
         body_json := none, size := 0 }, elapsedMs) ∧
    requestTimeoutSecs = 5 :=
  ⟨rfl, rfl⟩

/-- C2: whenever the two probe results' status codes differ,
    `_compare_responses` emits a `status_code_mismatch` discrepancy with
    `critical = true` and the resulting comparison is critical,
    unconditionally. -/
theorem c2_status_mismatch_critical (path method : String)
    (ra : ProbeResult) (la : ℚ) (rb : ProbeResult) (lb : ℚ)
    (h : ra.status ≠ rb.status) :
    (compare_responses path method ra la rb lb).critical = true ∧
    (⟨"status_code_mismatch",
      "Status code changed: " ++ toString ra.status ++ " -> " ++ toString rb.status,
      true⟩ : Discrepancy) ∈ (compare_responses path method ra la rb lb).discrepancies := by
  have hb : (ra.status != rb.status) = true := bne_iff_ne.mpr h
  constructor
  · simp [compare_responses, hb]
  · simp [compare_responses, hb]

/-- C2 witness: a 200-vs-500 pair yields a critical comparison carrying the
    status mismatch discrepancy. -/
theorem c2_witness :
    (compare_responses "/" "GET" ⟨200, [], none, none, none, 2⟩ 40
      ⟨500, [], none, none, none, 2⟩ 41).critical = true ∧
    (⟨"status_code_mismatch", "Status code changed: " ++ toString 200 ++ " -> " ++ toString 500,
      true⟩ : Discrepancy) ∈
      (compare_responses "/" "GET" ⟨200, [], none, none, none, 2⟩ 40
        ⟨500, [], none, none, none, 2⟩ 41).discrepancies :=
  c2_status_mismatch_critical "/" "GET" _ 40 _ 41 (by decide)

/-- C3: for every comparison produced by `_compare_responses`,
    `has_discrepancy` is true iff the discrepancy list is non-empty, and
    `critical` is true iff some contained discrepancy is critical. -/
theorem c3_flag_invariants (path method : String)
    (ra : ProbeResult) (la : ℚ) (rb : ProbeResult) (lb : ℚ) :
    ((compare_responses path method ra la rb lb).has_discrepancy = true ↔
      (compare_responses path method ra la rb lb).discrepancies ≠ []) ∧
    ((compare_responses path method ra la rb lb).critical = true ↔
      ∃ d ∈ (compare_responses path method ra la rb lb).discrepancies, d.critical = true) := by
  simp only [compare_responses]
  split_ifs <;> simp_all

/-- C4: for any pair of probe results with equal status codes, equal
    parsed-body shape signatures, latency increase at most 100 ms and byte
    size change at most 20 % of version A's size, `_compare_responses`
    returns a comparison with `has_discrepancy = false` and an empty
    discrepancy list. -/
theorem c4_within_bounds_no_discrepancy (path method : String)
    (ra : ProbeResult) (la : ℚ) (rb : ProbeResult) (lb : ℚ)
    (hstatus : ra.status = rb.status)
    (hschema : ∀ a b, ra.body_json = some a → rb.body_json = some b →
      schemaEqPy (extract_schema a) (extract_schema b) = true)
    (hlat : lb - la ≤ 100)
    (hsize : |(rb.size : ℚ) - (ra.size : ℚ)| ≤ 0.2 * (ra.size : ℚ)) :
    (compare_responses path method ra la rb lb).has_discrepancy = false ∧
    (compare_responses path method ra la rb lb).discrepancies = [] := by
  have hlat' : ¬(100 < lb - la) := not_lt.mpr hlat
  have hsz : ¬(0.2 < |(rb.size : ℚ) - (ra.size : ℚ)| / (ra.size : ℚ)) ∨ ¬(0 < ra.size) := by
    rcases Nat.eq_zero_or_pos ra.size with hz | hp
    · exact Or.inr (by simp [hz])
    · refine Or.inl (not_lt.mpr ?_)
      have hpq : (0 : ℚ) < (ra.size : ℚ) := by exact_mod_cast hp
      rw [div_le_iff₀ hpq]
      exact hsize
  rcases hja : ra.body_json with _ | a <;> rcases hjb : rb.body_json with _ | b
  · rcases hsz with hsz | hsz <;> simp [compare_responses, hja, hjb, hstatus, hlat', hsz]
  · rcases hsz with hsz | hsz <;> simp [compare_responses, hja, hjb, hstatus, hlat', hsz]
  · rcases hsz with hsz | hsz <;> simp [compare_responses, hja, hjb, hstatus, hlat', hsz]
  · have hq := hschema a b hja hjb
    rcases hsz with hsz | hsz <;> simp [compare_responses, hja, hjb, hstatus, hlat', hsz, hq]

/-- C4 witness: identical statuses and shapes, a 100 ms latency increase
    and a 10 % size change yield no discrepancy. -/
theorem c4_witness :
    (compare_responses "/" "GET"
      ⟨200, [], none, none, some (.obj [("a", .int 1)]), 100⟩ 40
      ⟨200, [], none, none, some (.obj [("a", .int 2)]), 110⟩ 140).has_discrepancy = false ∧
    (compare_responses "/" "GET"
      ⟨200, [], none, none, some (.obj [("a", .int 1)]), 100⟩ 40
      ⟨200, [], none, none, some (.obj [("a", .int 2)]), 110⟩ 140).discrepancies = [] :=
  c4_within_bounds_no_discrepancy "/" "GET" _ 40 _ 140 rfl
    (by intro a b ha hb
        cases ha
        cases hb
        decide)
    (by norm_num) (by norm_num)

/-- C1 counterexample: when both versions start but version B's readiness
    probe fails, `setup_dual_deployment` reports failure while both
    processes are still running and both `.gate_shadow` workspaces still
    exist — refuting the claim that teardown is guaranteed on every failing
    exit path. -/
theorem c1_counterexample :
    let env : ShadowEnv :=
      { parentSha := some "p", repoHead := "h", resolve := fun sha => some sha,
        detect := fun _ => some "python main.py", readyA := true, readyB := false }
    let r := setup_dual_deployment env "c" ⟨none, none, false, false⟩
    r.1.1 = false ∧ r.2.procA = true ∧ r.2.procB = true ∧
      r.2.wsA = some "p" ∧ r.2.wsB = some "c" := by
  decide

/-- C1 amended: on the failure path where version B fails to start after
    version A was started, version A's process is terminated before the
    failure is reported; full teardown of both processes and both workspace
    directories is performed only by `cleanup` (after which neither process
    runs and neither workspace exists) — `setup_dual_deployment` itself
    removes no workspace directory, and on the servers-not-ready failure
    path it stops no process. -/
theorem c1_teardown_amended :
    (∀ (env : ShadowEnv) (commit : String) (s : ShadowState),
        (setup_dual_deployment env commit s).1.2 =
          some "Failed to start version B (current commit)" →
        (setup_dual_deployment env commit s).2.procA = false) ∧
    (∀ s : ShadowState, cleanup s = ⟨none, none, false, false⟩) := by
  constructor
  · intro env commit s h
    rcases henv : env.parentSha with _ | p
    · simp [setup_dual_deployment, henv] at h
    · by_cases hA : (start_version env (pyStrip p) s.wsA).ok = true
      · by_cases hB : (start_version env commit s.wsB).ok = true
        · by_cases hR : (env.readyA && env.readyB) = true
          · simp [setup_dual_deployment, henv, hA, hB, hR] at h
          · simp [setup_dual_deployment, henv, hA, hB, hR] at h
        · simp [setup_dual_deployment, henv, hA, hB, stop_version]
      · simp [setup_dual_deployment, henv, hA] at h
  · intro s
    rfl

/-- C1 witness for the amended theorem: a run where version B's start
    command cannot be detected ends with version A's process stopped, and
    `cleanup` erases all processes and workspaces. -/
theorem c1_witness :
    let env : ShadowEnv :=
      { parentSha := some "p", repoHead := "h", resolve := fun sha => some sha,
        detect := fun c => if c == "p" then some "python main.py" else none,
        readyA := true, readyB := true }
    (setup_dual_deployment env "c" ⟨none, none, false, false⟩).2.procA = false ∧
    cleanup ⟨some "p", some "c", true, true⟩ = ⟨none, none, false, false⟩ :=
  ⟨c1_teardown_amended.1 _ "c" _ (by decide), c1_teardown_amended.2 _⟩

/-- Helper: a workspace already at the requested commit is reused —
    `_start_version` performs no filesystem or git action on it. -/
theorem start_version_reuse (env : ShadowEnv) (sha : String) :
    (start_version env sha (some sha)).ws = some sha ∧
    (start_version env sha (some sha)).actions = [] := by
  unfold start_version
  simp [is_correct_commit]
  rcases hd : env.detect sha with _ | cmd <;> simp [hd]

/-- Helper: a missing or stale workspace is removed (when present) and
    recreated by a fresh copy plus checkout. -/
theorem start_version_fresh (env : ShadowEnv) (sha : String) (ws0 : Option String)
    (h : ws0 ≠ some sha) (hres : env.resolve sha = some sha) :
    (start_version env sha ws0).ws = some sha ∧
    (start_version env sha ws0).actions =
      (if ws0.isSome then [MatAction.rmtree] else []) ++
        [MatAction.copytree, MatAction.checkout sha] := by
  unfold start_version
  have hcond : (!ws0.isSome || !is_correct_commit ws0 sha) = true := by
    rcases ws0 with _ | w
    · simp
    · have hw : w ≠ sha := fun he => h (by rw [he])
      simp [is_correct_commit, hw]
  simp only [hcond, if_true, Bool.true_eq]
  rw [hres]
  rcases hd : env.detect sha with _ | cmd <;> simp [hd]

/-- C9: materialization is idempotent — for a commit reference that is its
    own checkout target (a full SHA), a second `_start_version` with the
    same commit performs no remove, no re-copy and no re-checkout and leaves
    the workspace unchanged; an existing workspace is reused (no action)
    exactly when it is at the requested commit, and otherwise it is removed
    (when present) and recreated from a fresh copy of the repository
    followed by a checkout — never patched in place. -/
theorem c9_materialize_idempotent (env : ShadowEnv) (sha : String) (ws0 : Option String)
    (hres : env.resolve sha = some sha) :
    ((start_version env sha (start_version env sha ws0).ws).actions = [] ∧
     (start_version env sha (start_version env sha ws0).ws).ws =
       (start_version env sha ws0).ws) ∧
    (ws0 = some sha → (start_version env sha ws0).actions = []) ∧
    (ws0 ≠ some sha →
      (start_version env sha ws0).ws = some sha ∧
      (start_version env sha ws0).actions =
        (if ws0.isSome then [MatAction.rmtree] else []) ++
          [MatAction.copytree, MatAction.checkout sha]) := by
  have hws1 : (start_version env sha ws0).ws = some sha := by
    by_cases h0 : ws0 = some sha
    · rw [h0]; exact (start_version_reuse env sha).1
    · exact (start_version_fresh env sha ws0 h0 hres).1
  refine ⟨⟨?_, ?_⟩, ?_, ?_⟩
  · rw [hws1]; exact (start_version_reuse env sha).2
  · rw [hws1]; exact (start_version_reuse env sha).1
  · intro h0; rw [h0]; exact (start_version_reuse env sha).2
  · intro h0; exact start_version_fresh env sha ws0 h0 hres

/-- C9 witness: starting from no workspace, materializing commit `abc`
    copies and checks out once; rerunning performs nothing. -/
theorem c9_witness :
    let env : ShadowEnv :=
      { parentSha := some "p", repoHead := "h", resolve := fun sha => some sha,
        detect := fun _ => some "python main.py", readyA := true, readyB := true }
    ((start_version env "abc" (start_version env "abc" none).ws).actions = [] ∧
     (start_version env "abc" (start_version env "abc" none).ws).ws =
       (start_version env "abc" none).ws) ∧
    ((none : Option String) = some "abc" → (start_version env "abc" none).actions = []) ∧
    ((none : Option String) ≠ some "abc" →
      (start_version env "abc" none).ws = some "abc" ∧
      (start_version env "abc" none).actions =
        (if (none : Option String).isSome then [MatAction.rmtree] else []) ++
          [MatAction.copytree, MatAction.checkout "abc"]) :=
  c9_materialize_idempotent _ "abc" none rfl

mutual
/-- Structural schema equality is reflexive. -/
theorem Schema.beq_refl : ∀ a : Schema, a.beq a = true
  | .scalar s => by simp [Schema.beq]
  | .list1 s => by simp only [Schema.beq]; exact Schema.beq_refl s
  | .obj l => by simp only [Schema.beq]; exact beqEntries_refl l

/-- Structural entry-list equality is reflexive. -/
theorem beqEntries_refl : ∀ l : List (String × Schema), beqEntries l l = true
  | [] => rfl
  | (k, v) :: r => by
    simp only [beqEntries, Bool.and_eq_true]
    exact ⟨⟨beq_self_eq_true k, Schema.beq_refl v⟩, beqEntries_refl r⟩
end

/-- The key order is total. -/
theorem charListLE_total : ∀ l1 l2 : List Char, charListLE l1 l2 = true ∨ charListLE l2 l1 = true
  | [], _ => Or.inl rfl
  | _ :: _, [] => Or.inr rfl
  | a :: as, b :: bs => by
    rcases Nat.lt_trichotomy a.toNat b.toNat with h | h | h
    · exact Or.inl (by simp [charListLE, h])
    · rcases charListLE_total as bs with ih | ih
      · exact Or.inl (by simp [charListLE, h, ih])
      · exact Or.inr (by simp [charListLE, h.symm, ih])
    · exact Or.inr (by simp [charListLE, h])

/-- The key order is antisymmetric. -/
theorem charListLE_antisymm : ∀ l1 l2 : List Char,
    charListLE l1 l2 = true → charListLE l2 l1 = true → l1 = l2
  | [], [], _, _ => rfl
  | [], _ :: _, _, h2 => by simp [charListLE] at h2
  | _ :: _, [], h1, _ => by simp [charListLE] at h1
  | a :: as, b :: bs, h1, h2 => by
    simp only [charListLE, Bool.or_eq_true, Bool.and_eq_true, decide_eq_true_eq, beq_iff_eq]
      at h1 h2
    rcases h1 with h1 | ⟨hab, h1⟩
    · rcases h2 with h2 | ⟨hba, h2⟩
      · exact absurd h2 (Nat.lt_asymm h1)
      · exact absurd h1 (by rw [hba]; exact Nat.lt_irrefl _)
    · rcases h2 with h2 | ⟨hba, h2⟩
      · exact absurd h2 (by rw [hab]; exact Nat.lt_irrefl _)
      · have hc : a = b := Char.eq_of_val_eq (by
          apply UInt32.eq_of_val_eq
          exact Fin.eq_of_val_eq (by exact_mod_cast hab))
        rw [hc, charListLE_antisymm as bs h1 h2]

/-- Keys with equal character lists are equal strings. -/
theorem string_toList_inj {a b : String} (h : a.toList = b.toList) : a = b := by
  cases a
  cases b
  simp only [String.toList] at h
  exact congrArg String.mk h

/-- Distinct keys are strictly ordered one way. -/
theorem keyLE_cases {k1 k2 : String} (h : k1 ≠ k2) :
    (keyLE k1 k2 = true ∧ keyLE k2 k1 = false) ∨
    (keyLE k1 k2 = false ∧ keyLE k2 k1 = true) := by
  unfold keyLE
  rcases charListLE_total k1.toList k2.toList with h1 | h1
  · refine Or.inl ⟨h1, ?_⟩
    by_contra hne
    have h2 : charListLE k2.toList k1.toList = true := by
      revert hne
      cases charListLE k2.toList k1.toList <;> simp
    exact h (string_toList_inj (charListLE_antisymm _ _ h1 h2))
  · refine Or.inr ⟨?_, h1⟩
    by_contra hne
    have h2 : charListLE k1.toList k2.toList = true := by
      revert hne
      cases charListLE k1.toList k2.toList <;> simp
    exact h (string_toList_inj (charListLE_antisymm _ _ h2 h1))

/-- Python dict equality of two-entry schema dicts is independent of key
    order. -/
theorem schemaEqPy_two_key_swap (k1 k2 : String) (v1 v2 : Schema) (h : k1 ≠ k2) :
    schemaEqPy (.obj [(k1, v1), (k2, v2)]) (.obj [(k2, v2), (k1, v1)]) = true := by
  unfold schemaEqPy
  simp only [Schema.normalize, normalizeEntries, sortByKey, orderedInsertKey]
  rcases keyLE_cases h with ⟨h12, h21⟩ | ⟨h12, h21⟩ <;>
    simp only [h12, h21, if_true, if_false] <;>
    exact Schema.beq_refl _

/-- C5 counterexample: both response bodies parse as valid JSON (an empty
    object vs a one-key object) and their shape signatures differ, yet no
    `schema_change` discrepancy is emitted, because the source gates the
    schema comparison on Python truthiness of the parsed bodies and the
    empty object is falsy. -/
theorem c5_counterexample :
    schemaEqPy (extract_schema (.obj [])) (extract_schema (.obj [("a", .int 1)])) = false ∧
    ∀ d ∈ (compare_responses "/" "GET"
        ⟨200, [], none, some "\x7b\x7d", some (.obj []), 2⟩ 40
        ⟨200, [], none, some "\x7b\"a\": 1\x7d", some (.obj [("a", .int 1)]), 8⟩ 40).discrepancies,
      d.type ≠ "schema_change" := by
  refine ⟨by decide, ?_⟩
  intro d hd
  norm_num [compare_responses, Json.truthy] at hd
  rw [hd]
  decide

/-- C5 amended: whenever both parsed bodies are truthy (in particular,
    non-empty objects or arrays) and their shape signatures differ under
    Python equality, `_compare_responses` emits a `schema_change`
    discrepancy with `critical = false`; the signature is computed
    recursively (object → mapping of key to value shape, non-empty sequence
    → singleton of the first element's shape, scalar → type name) and is
    compared independent of the order of keys. Falsy parsed bodies (empty
    object/array, null, zero, empty string) skip the schema comparison. -/
theorem c5_schema_change_amended (path method : String) (ra : ProbeResult) (la : ℚ)
    (rb : ProbeResult) (lb : ℚ) (a b : Json)
    (hja : ra.body_json = some a) (hjb : rb.body_json = some b)
    (hta : a.truthy = true) (htb : b.truthy = true)
    (hne : schemaEqPy (extract_schema a) (extract_schema b) = false) :
    (⟨"schema_change", "Response schema changed", false⟩ : Discrepancy) ∈
      (compare_responses path method ra la rb lb).discrepancies ∧
    (compare_responses path method ra la rb lb).has_discrepancy = true ∧
    ∀ (k1 k2 : String) (w1 w2 : Json), k1 ≠ k2 →
      schemaEqPy (extract_schema (.obj [(k1, w1), (k2, w2)]))
        (extract_schema (.obj [(k2, w2), (k1, w1)])) = true := by
  refine ⟨?_, ?_, ?_⟩
  · simp [compare_responses, hja, hjb, hta, htb, hne]
  · simp [compare_responses, hja, hjb, hta, htb, hne]
  · intro k1 k2 w1 w2 hk
    have he : extract_schema (.obj [(k1, w1), (k2, w2)]) =
        .obj [(k1, extract_schema w1), (k2, extract_schema w2)] := rfl
    have he' : extract_schema (.obj [(k2, w2), (k1, w1)]) =
        .obj [(k2, extract_schema w2), (k1, extract_schema w1)] := rfl
    rw [he, he']
    exact schemaEqPy_two_key_swap k1 k2 _ _ hk

/-- C5 witness: a non-empty object body against a string body triggers the
    schema-change discrepancy, and a two-key object compares equal to its
    key-swapped form. -/
theorem c5_witness :
    ((⟨"schema_change", "Response schema changed", false⟩ : Discrepancy) ∈
      (compare_responses "/" "GET"
        ⟨200, [], none, some "\x7b\"a\": 1\x7d", some (.obj [("a", .int 1)]), 8⟩ 40
        ⟨200, [], none, some "\"x\"", some (.str "x"), 3⟩ 40).discrepancies) ∧
    (compare_responses "/" "GET"
        ⟨200, [], none, some "\x7b\"a\": 1\x7d", some (.obj [("a", .int 1)]), 8⟩ 40
        ⟨200, [], none, some "\"x\"", some (.str "x"), 3⟩ 40).has_discrepancy = true ∧
    schemaEqPy (extract_schema (.obj [("x", .int 1), ("y", .int 2)]))
      (extract_schema (.obj [("y", .int 2), ("x", .int 1)])) = true := by
  have h := c5_schema_change_amended "/" "GET"
    ⟨200, [], none, some "\x7b\"a\": 1\x7d", some (.obj [("a", .int 1)]), 8⟩ 40
    ⟨200, [], none, some "\"x\"", some (.str "x"), 3⟩ 40
    (.obj [("a", .int 1)]) (.str "x") rfl rfl (by decide) (by decide) (by decide)
  exact ⟨h.1, h.2.1, h.2.2 "x" "y" (.int 1) (.int 2) (by decide)⟩

/-- C10 counterexample: for the bodies `[]` and `[1]` (an empty vs a
    non-empty array at the same — root — position) the shape signatures do
    differ, but no `schema_change` discrepancy is reported because the
    empty array is falsy and the source's truthiness gate skips the schema
    comparison; and for bodies holding the arrays past the first position
    of a surrounding array (`[1, []]` vs `[1, [2]]`) the signatures do not
    even differ, since a sequence's shape is taken from its first element
    only. -/
theorem c10_counterexample :
    (schemaEqPy (extract_schema (.arr [])) (extract_schema (.arr [.int 1])) = false ∧
     ∀ d ∈ (compare_responses "/" "GET"
         ⟨200, [], none, some "[]", some (.arr []), 2⟩ 40
         ⟨200, [], none, some "[1]", some (.arr [.int 1]), 3⟩ 40).discrepancies,
       d.type ≠ "schema_change") ∧
    schemaEqPy (extract_schema (.obj [("a", .arr [.int 1, .arr []])]))
      (extract_schema (.obj [("a", .arr [.int 1, .arr [.int 2]])])) = true := by
  refine ⟨⟨by decide, ?_⟩, by decide⟩
  intro d hd
  norm_num [compare_responses, Json.truthy] at hd
  rw [hd]
  decide

/-- C10 amended: `_extract_schema` maps an empty sequence to the scalar
    type name `list` and a non-empty sequence to a singleton of its first
    element's shape, so an empty and a non-empty array always have
    different shape signatures; when the two arrays are the value of the
    same key of otherwise-identical single-key objects (hence both parsed
    bodies are truthy), the bodies' signatures differ and
    `_compare_responses` reports a `schema_change` discrepancy. With falsy
    bodies (e.g. the arrays themselves at root position) no discrepancy is
    reported, and at a sequence position past the first element the
    signatures need not differ. -/
theorem c10_empty_array_schema_amended (path method : String) (ra : ProbeResult) (la : ℚ)
    (rb : ProbeResult) (lb : ℚ) (k : String) (x : Json) (xs : List Json)
    (hja : ra.body_json = some (.obj [(k, .arr [])]))
    (hjb : rb.body_json = some (.obj [(k, .arr (x :: xs))])) :
    extract_schema (.arr []) = .scalar "list" ∧
    extract_schema (.arr (x :: xs)) = .list1 (extract_schema x) ∧
    schemaEqPy (extract_schema (.obj [(k, .arr [])]))
      (extract_schema (.obj [(k, .arr (x :: xs))])) = false ∧
    (⟨"schema_change", "Response schema changed", false⟩ : Discrepancy) ∈
      (compare_responses path method ra la rb lb).discrepancies := by
  have hne : schemaEqPy (extract_schema (.obj [(k, .arr [])]))
      (extract_schema (.obj [(k, .arr (x :: xs))])) = false := by
    simp [schemaEqPy, extract_schema, extract_schema_entries, Schema.normalize,
      normalizeEntries, sortByKey, orderedInsertKey, Schema.beq, beqEntries]
  refine ⟨rfl, rfl, hne, ?_⟩
  simp [compare_responses, hja, hjb, Json.truthy, hne]

/-- C10 witness: single-key objects holding `[]` and `[1]` produce
    different signatures and a reported schema change. -/
theorem c10_witness :
    extract_schema (.arr []) = .scalar "list" ∧
    extract_schema (.arr [.int 1]) = .list1 (extract_schema (.int 1)) ∧
    schemaEqPy (extract_schema (.obj [("a", .arr [])]))
      (extract_schema (.obj [("a", .arr [.int 1])])) = false ∧
    (⟨"schema_change", "Response schema changed", false⟩ : Discrepancy) ∈
      (compare_responses "/" "GET"
        ⟨200, [], none, some "\x7b\"a\": []\x7d", some (.obj [("a", .arr [])]), 9⟩ 40
        ⟨200, [], none, some "\x7b\"a\": [1]\x7d", some (.obj [("a", .arr [.int 1])]), 10⟩
        40).discrepancies :=
  c10_empty_array_schema_amended "/" "GET"
    ⟨200, [], none, some "\x7b\"a\": []\x7d", some (.obj [("a", .arr [])]), 9⟩ 40
    ⟨200, [], none, some "\x7b\"a\": [1]\x7d", some (.obj [("a", .arr [.int 1])]), 10⟩ 40
    "a" (.int 1) [] rfl rfl

/-- C8: evaluation of `analyze_changes` at the spec's root-commit scenario
    (no parent, tree containing the single 10-line file `a.py`). The spec
    and the claim require one parsed entry `a.py` with additions = 10 and
    deletions = 0, but the code returns no file entries at all: the
    `--stat` histogram row `" a.py | 10 ++++++++++"` contains the substring
    `+++`, so the guard `'+++' not in line` of `_parse_git_diff` — whose
    own format comment shows exactly such a row — skips it. -/
theorem c8_root_commit_stat_guard_bug :
    (analyze_changes rootCommitEnv "/repo" "c1" "main").toOption.map Changes.modified_files =
      some [] ∧
    (analyze_changes rootCommitEnv "/repo" "c1" "main").toOption.map Changes.total_additions =
      some 0 ∧
    pyContains "+++" " a.py | 10 ++++++++++" = true := by
  refine ⟨?_, ?_, by decide⟩ <;> decide

/-- Rebuilding a string from its character list is the identity. -/
theorem string_mk_toList (s : String) : (⟨s.toList⟩ : String) = s := by
  cases s
  rfl

/-- Splitting distributes over a separator character. -/
theorem pySplitCharAux_append (c : Char) :
    ∀ (l1 l2 : List Char) (acc : List Char),
      pySplitCharAux c (l1 ++ c :: l2) acc =
        pySplitCharAux c l1 acc ++ pySplitCharAux c l2 [] := by
  intro l1
  induction l1 with
  | nil =>
    intro l2 acc
    simp [pySplitCharAux]
  | cons z xs ih =>
    intro l2 acc
    simp only [List.cons_append, pySplitCharAux, List.append_eq]
    by_cases hz : z = c
    · simp only [if_pos hz]
      rw [ih]
      rfl
    · simp only [if_neg hz]
      exact ih l2 (z :: acc)

/-- A separator-free suffix splits into a single piece. -/
theorem pySplitCharAux_no_sep (c : Char) :
    ∀ (l acc : List Char), c ∉ l →
      pySplitCharAux c l acc = [⟨acc.reverse ++ l⟩] := by
  intro l
  induction l with
  | nil => intro acc _; simp [pySplitCharAux]
  | cons x xs ih =>
    intro acc h
    have hx : ¬(x = c) := fun he => h (he ▸ List.mem_cons_self x xs)
    have hxs : c ∉ xs := fun hc => h (List.mem_cons_of_mem x hc)
    simp only [pySplitCharAux, if_neg hx]
    rw [ih (x :: acc) hxs]
    simp

/-- A newline-free string splits into itself. -/
theorem pySplitChar_no_sep {s : String} (h : '\n' ∉ s.toList) :
    pySplitChar '\n' s = [s] := by
  unfold pySplitChar
  rw [pySplitCharAux_no_sep '\n' s.toList [] h]
  simp [string_mk_toList]

/-- Splitting a newline join yields the concatenation of the splits of the
    pieces. -/
theorem pySplitChar_join : ∀ xs : List String, xs ≠ [] →
    pySplitChar '\n' (pyJoin "\n" xs) = (xs.map (pySplitChar '\n')).flatten := by
  intro xs
  induction xs with
  | nil => intro h; exact absurd rfl h
  | cons x ys ih =>
    intro _
    cases hys : ys with
    | nil =>
      simp only [pyJoin, pyJoinAux, List.map, List.flatten]
      unfold pySplitChar
      simp [pySplitCharAux]
    | cons y rest =>
      have hjoin : (pyJoin "\n" (x :: y :: rest)).toList =
          x.toList ++ '\n' :: (pyJoin "\n" (y :: rest)).toList := by
        simp [pyJoin, pyJoinAux]
      unfold pySplitChar
      rw [hjoin, pySplitCharAux_append]
      rw [hys] at ih
      have ih' := ih (by simp)
      unfold pySplitChar at ih'
      rw [ih']
      simp

/-- Every piece of a split is separator-free. -/
theorem pySplitCharAux_no_sep_mem (c : Char) :
    ∀ (l acc : List Char), c ∉ acc →
      ∀ x ∈ pySplitCharAux c l acc, c ∉ x.toList := by
  intro l
  induction l with
  | nil =>
    intro acc hacc x hx
    simp only [pySplitCharAux, List.mem_singleton] at hx
    subst hx
    simpa using fun hc => hacc (List.mem_reverse.mp hc)
  | cons z zs ih =>
    intro acc hacc x hx
    by_cases hz : z = c
    · subst hz
      simp only [pySplitCharAux, if_pos rfl] at hx
      cases hx with
      | head => simpa using fun hc => hacc (List.mem_reverse.mp hc)
      | tail _ h => exact ih [] (by simp) x h
    · simp only [pySplitCharAux, if_neg hz] at hx
      refine ih (z :: acc) ?_ x hx
      intro hc
      rcases List.mem_cons.mp hc with hc | hc
      · exact hz hc.symm
      · exact hacc hc

/-- Every line produced by splitting on newlines is newline-free. -/
theorem pySplitChar_mem_no_sep {s : String} :
    ∀ x ∈ pySplitChar '\n' s, '\n' ∉ x.toList :=
  pySplitCharAux_no_sep_mem '\n' s.toList [] (by simp)

/-- Flattening singletons is the identity. -/
theorem flatten_map_singleton {α : Type} : ∀ l : List α, (l.map (fun x => [x])).flatten = l := by
  intro l
  induction l with
  | nil => rfl
  | cons x xs ih => simp [ih]

/-- Splitting the newline join of newline-free lines recovers the lines. -/
theorem pySplitChar_join_id {cd : List String} (hne : cd ≠ [])
    (hnl : ∀ x ∈ cd, '\n' ∉ x.toList) :
    pySplitChar '\n' (pyJoin "\n" cd) = cd := by
  rw [pySplitChar_join cd hne]
  have hmap : cd.map (pySplitChar '\n') = cd.map (fun x => [x]) :=
    List.map_congr_left fun x hx => pySplitChar_no_sep (hnl x hx)
  rw [hmap, flatten_map_singleton]

/-- A line starting with one prefix cannot start with a prefix whose first
    character differs. -/
theorem pyStartsWith_first_char_ne {l p q : String} {c d : Char} {cs ds : List Char}
    (hP : p.toList = c :: cs) (hQ : q.toList = d :: ds) (hcd : d ≠ c)
    (hp : pyStartsWith l p = true) : pyStartsWith l q = false := by
  unfold pyStartsWith at hp ⊢
  rw [hP] at hp
  rw [hQ]
  cases hl : l.toList with
  | nil => rw [hl] at hp; simp [List.isPrefixOf] at hp
  | cons z zs =>
    rw [hl] at hp
    simp only [List.isPrefixOf, Bool.and_eq_true, beq_iff_eq] at hp
    have hdz : (d == z) = false :=
      beq_eq_false_iff_ne.mpr fun he => hcd (he.trans hp.1.symm)
    simp [List.isPrefixOf, hdz]

/-- A line that does not start with `+++ b/` carries no new-file marker. -/
theorem not_new_marker {l : String} (h : pyStartsWith l "+++ b/" = false) :
    newFileMarkerPath l = none := by
  simp [newFileMarkerPath, h]

/-- A `diff --git` header line carries no new-file marker. -/
theorem header_not_new_marker {l : String} (h : pyStartsWith l "diff --git" = true) :
    newFileMarkerPath l = none :=
  not_new_marker (@pyStartsWith_first_char_ne l "diff --git" "+++ b/" 'd' '+'
    ("iff --git".toList) ("++ b/".toList) (by decide) (by decide) (by decide) h)

/-- An old-file `--- a/` marker line carries no new-file marker. -/
theorem dash_not_new_marker {l : String} (h : pyStartsWith l "--- a/" = true) :
    newFileMarkerPath l = none :=
  not_new_marker (@pyStartsWith_first_char_ne l "--- a/" "+++ b/" '-' '+'
    ("-- a/".toList) ("++ b/".toList) (by decide) (by decide) (by decide) h)

/-- New-file paths of a single line. -/
theorem newFilePathsL_singleton (l : String) :
    newFilePathsL [l] = (newFileMarkerPath l).toList := by
  unfold newFilePathsL
  cases h : newFileMarkerPath l <;> simp [List.filterMap_cons, h]

/-- New-file paths of an appended line list. -/
theorem newFilePathsL_append (l1 l2 : List String) :
    newFilePathsL (l1 ++ l2) = newFilePathsL l1 ++ newFilePathsL l2 :=
  List.filterMap_append _ _ _

/-- New-file paths of a line list, one line at a time. -/
theorem newFilePathsL_cons (l : String) (ls : List String) :
    newFilePathsL (l :: ls) = (newFileMarkerPath l).toList ++ newFilePathsL ls := by
  unfold newFilePathsL
  cases h : newFileMarkerPath l <;> simp [List.filterMap_cons, h]

/-- One parser step preserves the loop invariant and appends exactly the
    line's new-file marker path (if any) to the accumulated paths. -/
theorem pdStep_paths (st : PDState) (line : String)
    (inv : PDGood st) (hnl : '\n' ∉ line.toList)
    (hgood : pyStartsWith line "+++ b/" = true → pyStrip (pyDrop line 6) ≠ "") :
    PDGood (pdStep st line) ∧
    pdPaths (pdStep st line) = pdPaths st ++ (newFileMarkerPath line).toList := by
  obtain ⟨inv1, inv2, inv3⟩ := inv
  unfold pdStep
  by_cases h1 : pyStartsWith line "diff --git" = true
  · rw [if_pos h1]
    have hm : newFileMarkerPath line = none := header_not_new_marker h1
    refine ⟨⟨fun _ => by simp [newFilePathsL_singleton, hm], fun f hf => by simp at hf,
      fun x hx => by simp at hx; rw [hx]; exact hnl⟩, ?_⟩
    cases hcf : st.current_file with
    | none =>
      have hcd := inv1 hcf
      simp [pdPaths, pdEmit, hcf, hcd, newFilePathsL_singleton, hm]
    | some f =>
      obtain ⟨hf, hcd⟩ := inv2 f hcf
      have hjoin : newFilePaths (pyJoin "\n" st.current_diff) =
          newFilePathsL st.current_diff := by
        unfold newFilePaths
        rw [pySplitChar_join_id hcd inv3]
      simp [pdPaths, pdEmit, hcf, hf, hcd, newFilePathsL_singleton, hm, hjoin]
  · rw [if_neg h1]
    by_cases h2 : (pyStartsWith line "--- a/" || pyStartsWith line "+++ b/") = true
    · rw [if_pos h2]
      by_cases h3 : pyStartsWith line "+++ b/" = true
      · rw [if_pos h3]
        refine ⟨⟨fun hn => by simp at hn, fun f hf => ?_, fun x hx => ?_⟩, ?_⟩
        · refine ⟨?_, by simp⟩
          simp only [Option.some_inj] at hf
          rw [← hf]
          exact hgood h3
        · rcases List.mem_append.mp hx with hx | hx
          · exact inv3 x hx
          · simp at hx; rw [hx]; exact hnl
        · simp only [pdPaths, newFilePathsL_append, newFilePathsL_singleton]
          simp [List.append_assoc]
      · have hm : newFileMarkerPath line = none := not_new_marker (by simpa using h3)
        rw [if_neg h3]
        refine ⟨⟨fun hn => ?_, fun f hf => ?_, fun x hx => ?_⟩, ?_⟩
        · rw [newFilePathsL_append, inv1 hn, newFilePathsL_singleton, hm]
          rfl
        · exact ⟨(inv2 f hf).1, by simp⟩
        · rcases List.mem_append.mp hx with hx | hx
          · exact inv3 x hx
          · simp at hx; rw [hx]; exact hnl
        · simp only [pdPaths, newFilePathsL_append, newFilePathsL_singleton]
          simp [List.append_assoc]
    · rw [if_neg h2]
      have h3 : pyStartsWith line "+++ b/" = false := by
        rcases Bool.or_eq_false_iff.mp (by simpa using h2) with ⟨-, hb⟩
        exact hb
      have hm : newFileMarkerPath line = none := not_new_marker h3
      by_cases h4 : (!st.current_diff.isEmpty) = true
      · rw [if_pos h4]
        refine ⟨⟨fun hn => ?_, fun f hf => ?_, fun x hx => ?_⟩, ?_⟩
        · rw [newFilePathsL_append, inv1 hn, newFilePathsL_singleton, hm]
          rfl
        · exact ⟨(inv2 f hf).1, by simp⟩
        · rcases List.mem_append.mp hx with hx | hx
          · exact inv3 x hx
          · simp at hx; rw [hx]; exact hnl
        · simp only [pdPaths, newFilePathsL_append, newFilePathsL_singleton]
          simp [List.append_assoc, hm]
      · rw [if_neg h4]
        exact ⟨⟨inv1, inv2, inv3⟩, by simp [hm]⟩

/-- Folding the parser over good lines preserves the invariant and
    accumulates exactly the lines' new-file marker paths. -/
theorem pdFold_paths : ∀ (lines : List String) (st : PDState),
    PDGood st →
    (∀ l ∈ lines, '\n' ∉ l.toList) →
    (∀ l ∈ lines, pyStartsWith l "+++ b/" = true → pyStrip (pyDrop l 6) ≠ "") →
    PDGood (lines.foldl pdStep st) ∧
    pdPaths (lines.foldl pdStep st) = pdPaths st ++ newFilePathsL lines := by
  intro lines
  induction lines with
  | nil =>
    intro st inv _ _
    exact ⟨inv, by simp [newFilePathsL]⟩
  | cons l ls ih =>
    intro st inv hnl hgood
    obtain ⟨inv', hp⟩ := pdStep_paths st l inv (hnl l (List.mem_cons_self l ls))
      (hgood l (List.mem_cons_self l ls))
    obtain ⟨inv'', hp2⟩ := ih (pdStep st l) inv'
      (fun x hx => hnl x (List.mem_cons_of_mem l hx))
      (fun x hx => hgood x (List.mem_cons_of_mem l hx))
    refine ⟨by simpa using inv'', ?_⟩
    rw [List.foldl_cons, hp2, hp, newFilePathsL_cons, List.append_assoc]

/-- C7 counterexample: for a diff stream consisting of a single deleted
    file, `_parse_diff_content` records no `FileDiff` entry at all — the
    deleted file's path, taken from the old-file marker in the full text,
    is absent from the (empty) concatenation of per-file texts. -/
theorem c7_counterexample :
    parse_diff_content deletionDiffText = [] ∧
    oldFilePaths deletionDiffText = ["old.py"] ∧
    oldFilePaths (pyJoin "\n" ((parse_diff_content deletionDiffText).map FileDiff.diff)) = [] := by
  refine ⟨by decide, by decide, by decide⟩

/-- C7 amended: for every raw diff stream in which every `+++ b/` new-file
    marker line carries a non-empty path, concatenating (joined with
    newlines, as the source joins lines) the per-file diff texts produced
    by `_parse_diff_content`, in order, yields a diff stream containing
    exactly the same sequence of new-file marker paths as the full diff
    text. File sections without a usable new-file marker — in particular a
    file deleted entirely, whose new-file marker is `+++ /dev/null` — are
    dropped and are not recorded as `FileDiff` entries, so the round trip
    holds only for the new-file paths, not for old-file paths of
    deletions. -/
theorem c7_roundtrip_amended (s : String)
    (H : ∀ line ∈ pySplitChar '\n' s, pyStartsWith line "+++ b/" = true →
      pyStrip (pyDrop line 6) ≠ "") :
    newFilePaths (pyJoin "\n" ((parse_diff_content s).map FileDiff.diff)) = newFilePaths s := by
  have hnl : ∀ x ∈ pySplitChar '\n' s, '\n' ∉ x.toList := pySplitChar_mem_no_sep
  have init : PDGood ⟨[], none, []⟩ :=
    ⟨fun _ => rfl, fun f hf => by simp at hf, fun x hx => by simp at hx⟩
  obtain ⟨invF, hpF⟩ := pdFold_paths (pySplitChar '\n' s) ⟨[], none, []⟩ init hnl H
  have hparse : parse_diff_content s =
      ((pySplitChar '\n' s).foldl pdStep ⟨[], none, []⟩).diffs ++
        pdEmit ((pySplitChar '\n' s).foldl pdStep ⟨[], none, []⟩) := rfl
  have hinit0 : pdPaths ⟨[], none, []⟩ = [] := rfl
  rw [hinit0, List.nil_append] at hpF
  have hres : (((parse_diff_content s).map (fun e => newFilePaths e.diff))).flatten =
      pdPaths ((pySplitChar '\n' s).foldl pdStep ⟨[], none, []⟩) := by
    obtain ⟨i1, i2, i3⟩ := invF
    rw [hparse]
    cases hcf : ((pySplitChar '\n' s).foldl pdStep ⟨[], none, []⟩).current_file with
    | none =>
      simp [pdEmit, hcf, pdPaths, i1 hcf]
    | some f =>
      obtain ⟨hf, hcd⟩ := i2 f hcf
      have hjoin : newFilePaths
          (pyJoin "\n" ((pySplitChar '\n' s).foldl pdStep ⟨[], none, []⟩).current_diff) =
          newFilePathsL ((pySplitChar '\n' s).foldl pdStep ⟨[], none, []⟩).current_diff := by
        unfold newFilePaths
        rw [pySplitChar_join_id hcd i3]
      simp [pdEmit, hcf, hf, hcd, pdPaths, hjoin]
  cases hE : parse_diff_content s with
  | nil =>
    rw [hE] at hres
    simp only [List.map_nil, List.flatten_nil] at hres
    have hlhs : newFilePaths (pyJoin "\n" (List.map FileDiff.diff ([] : List FileDiff))) = [] := by
      decide
    rw [hlhs]
    unfold newFilePaths
    rw [← hpF]
    exact hres
  | cons e es =>
    rw [hE] at hres
    have hne : List.map FileDiff.diff (e :: es) ≠ [] := by simp
    unfold newFilePaths newFilePathsL
    rw [pySplitChar_join _ hne, List.filterMap_flatten, List.map_map, List.map_map]
    exact hres.trans hpF

/-- C7 witness: a two-file diff (one modification, one deletion) round
    trips its single new-file path; the deletion contributes none. -/
theorem c7_witness :
    newFilePaths (pyJoin "\n"
      ((parse_diff_content ("diff --git a/a.py b/a.py\n--- a/a.py\n+++ b/a.py\n@@ -1 +1 @@\n-x\n+y\n" ++ deletionDiffText)).map FileDiff.diff)) =
    newFilePaths ("diff --git a/a.py b/a.py\n--- a/a.py\n+++ b/a.py\n@@ -1 +1 @@\n-x\n+y\n" ++ deletionDiffText) :=
  c7_roundtrip_amended _ (by decide)
